import Mathlib

/-!
Verification of the telegram-chat-recovery scripts.

The Python sources are shallowly embedded over `List Nat` byte buffers
(each element is one byte, 0–255).  Python byte strings become
`List Nat`; Python `str` values produced by UTF-8 decoding of wire
bytes are kept as their raw byte sequences (the decoding with
`errors='replace'` is injective on the ASCII keys compared by the
scripts, so key comparison is byte-list equality).  Machine integers
are `Nat`/`Int` with explicit two's-complement conversion.  Fallible
reads return `Except DErr`.
-/

namespace TGRec

/-- A byte buffer: one `Nat` per byte. -/
abbrev Bytes := List Nat

/-- Two's-complement reading of a `w`-bit unsigned value as a signed integer
(`struct.unpack` with a signed format). -/
def toSigned (w : Nat) (n : Nat) : Int :=
  if n < 2 ^ (w - 1) then (n : Int) else (n : Int) - 2 ^ w

/-- Little-endian value of a byte list. -/
def leNat (bs : Bytes) : Nat :=
  bs.foldr (fun b acc => b + 256 * acc) 0

/-- Big-endian value of a byte list. -/
def beNat (bs : Bytes) : Nat :=
  bs.foldl (fun acc b => acc * 256 + b) 0

/-- Little-endian byte encoding of the low 32 bits of an integer. -/
def int32LE (n : Int) : Bytes :=
  let u := (n % 2 ^ 32).toNat
  [u % 256, u / 256 % 256, u / 65536 % 256, u / 16777216 % 256]

/-- ASCII code of the hex digit for `n < 16` (`bytes.hex()` uses lowercase). -/
def hexDigit (n : Nat) : Nat :=
  if n < 10 then 48 + n else 87 + n

/-- ASCII bytes of `data.hex()`. -/
def hexAscii (bs : Bytes) : Bytes :=
  bs.flatMap fun b => [hexDigit (b / 16), hexDigit (b % 16)]

/-! ### MurmurHash3 x86 32-bit (the `mmh3.hash` library call, `HashNaming`)

`decrypt_db.py` line 29: `mmh3.hash(d, seed=0xf7ca7fd2)`, which is
MurmurHash3_x86_32 returning a signed 32-bit value. -/

/-- 32-bit left rotation. -/
def rotl32 (x r : Nat) : Nat :=
  ((x <<< r) ||| (x >>> (32 - r))) % 2 ^ 32

/-- The per-block mixing of a 32-bit chunk `k`. -/
def murmurMixK (k : Nat) : Nat :=
  rotl32 (k * 0xcc9e2d51 % 2 ^ 32) 15 * 0x1b873593 % 2 ^ 32

/-- The per-block update of the hash state. -/
def murmurMixH (h k : Nat) : Nat :=
  (rotl32 (h ^^^ murmurMixK k) 13 * 5 + 0xe6546b64) % 2 ^ 32

/-- Final avalanche of MurmurHash3_x86_32. -/
def murmurFmix (h0 : Nat) : Nat :=
  let h1 := h0 ^^^ (h0 >>> 16)
  let h2 := h1 * 0x85ebca6b % 2 ^ 32
  let h3 := h2 ^^^ (h2 >>> 13)
  let h4 := h3 * 0xc2b2ae35 % 2 ^ 32
  h4 ^^^ (h4 >>> 16)

/-- Body loop of MurmurHash3_x86_32: consume 4-byte little-endian blocks,
then mix the (1–3 byte) tail into the state. -/
def murmurGo : Bytes → Nat → Nat
  | b0 :: b1 :: b2 :: b3 :: rest, h =>
      murmurGo rest (murmurMixH h (b0 + 256 * b1 + 65536 * b2 + 16777216 * b3))
  | [], h => h
  | tail, h => h ^^^ murmurMixK (leNat tail)

/-- `mmh3.hash(data, seed)`: MurmurHash3_x86_32, result as signed 32-bit. -/
def mmh3hash (data : Bytes) (seed : Nat) : Int :=
  toSigned 32 (murmurFmix (murmurGo data seed ^^^ data.length % 2 ^ 32))

/-- `decrypt_db.py` `murmur`: the fixed-seed hash used by Telegram
(seed `0xf7ca7fd2`, i.e. `-137723950` as signed). -/
def murmur (d : Bytes) : Int := mmh3hash d 0xf7ca7fd2

/-! ### KeyRecovery (`decrypt_db.py`) -/

/-- Failure modes of `tempkey_parse`: `structError` is the
`struct.error` raised by `struct.unpack('<i', ...)` on a slice shorter
than 4 bytes; `hashMismatch` is the explicit `Hash mismatch` exception
(`KeyVerificationFailed`). -/
inductive KeyErr where
  | structError
  | hashMismatch
  deriving DecidableEq, Repr

/-- `struct.unpack('<i', bs)[0]`: requires exactly 4 bytes. -/
def unpackI32LE (bs : Bytes) : Option Int :=
  if bs.length = 4 then some (toSigned 32 (leNat bs)) else none

/-- `tempkey_kdf` (`decrypt_db.py` lines 32–38): the digest of the
passphrase under a wide hash; first 32 bytes become the AES key, last 16
the IV.  The SHA-512 primitive is an external library call, taken here
as a function parameter. -/
def tempkey_kdf (sha512 : Bytes → Bytes) (password : Bytes) : Bytes × Bytes :=
  let digest := sha512 password
  (digest.take 32, digest.drop (digest.length - 16))

/-- The post-decryption half of `tempkey_parse` (`decrypt_db.py` lines
45–59), operating on the CBC plaintext `data`: partition into key /
salt / stored checksum / padding, warn on bad padding, and verify the
murmur checksum of `key ++ salt` against the stored value.  The
returned `Bool` is the `dbPad not 12 zeros` warning. -/
def tempkey_parse_plain (data : Bytes) : Except KeyErr ((Bytes × Bytes) × Bool) :=
  let dbKey := data.take 32
  let dbSalt := (data.drop 32).take 16
  match unpackI32LE ((data.drop 48).take 4) with
  | none => .error .structError
  | some dbHash =>
    let dbPad := data.drop 52
    let warn := decide (dbPad.length ≠ 12) || dbPad.any (· ≠ 0)
    let calcHash := murmur (dbKey ++ dbSalt)
    if dbHash ≠ calcHash then .error .hashMismatch
    else .ok ((dbKey, dbSalt), warn)

/-- Full `tempkey_parse`: derive key/IV from the passphrase, CBC-decrypt
the container (AES-256-CBC is an external library call, taken as a
function parameter `aesCBCdecrypt key iv ciphertext`), then parse and
verify the plaintext. -/
def tempkey_parse (sha512 : Bytes → Bytes)
    (aesCBCdecrypt : Bytes → Bytes → Bytes → Bytes)
    (dataEnc : Bytes) (pwd : Bytes) : Except KeyErr ((Bytes × Bytes) × Bool) :=
  let kiv := tempkey_kdf sha512 pwd
  tempkey_parse_plain (aesCBCdecrypt kiv.1 kiv.2 dataEnc)

/-! ### byteutil (`extract_messages.py` lines 25–60)

A `byteutil` object wraps a `BytesIO`; we carry the buffer and the
cursor position explicitly.  `read_fmt` checks that enough bytes were
read and raises `EOFError("Not enough data")` otherwise — modelled as
`DErr.truncated`.  Plain `buf.read(n)` (used by `read_bytes` /
`read_short_bytes`) clamps to the remaining bytes without error, and a
negative `n` reads the whole rest of the stream. -/

/-- Decoder failures: `truncated` is `EOFError` raised by
`byteutil.read_fmt`; `unknownTag` is the `ValueError` raised by
`PostboxDecoder.ValueType(...)` on a tag outside 0–13; `fuelOut` is the
artificial out-of-recursion-budget marker of this embedding (never hit
at the canonical fuel `buffer length + 1`). -/
inductive DErr where
  | truncated
  | unknownTag
  | fuelOut
  deriving DecidableEq, Repr

/-- `BytesIO.read(n)` at position `pos`: clamps to the remaining bytes;
a negative `n` reads the rest.  Returns the bytes and the new position. -/
def pyRead (buf : Bytes) (pos : Nat) (n : Int) : Bytes × Nat :=
  if n < 0 then (buf.drop pos, buf.length)
  else
    let d := (buf.drop pos).take n.toNat
    (d, pos + d.length)

/-- `byteutil.read_fmt` byte fetch: read exactly `n` bytes or fail with
`EOFError` (`truncated`). -/
def readFmtBytes (buf : Bytes) (pos : Nat) (n : Nat) : Except DErr (Bytes × Nat) :=
  let d := (buf.drop pos).take n
  if d.length < n then .error .truncated else .ok (d, pos + n)

/-- `read_uint8`. -/
def readUint8 (buf : Bytes) (pos : Nat) : Except DErr (Nat × Nat) := do
  let (d, p) ← readFmtBytes buf pos 1
  .ok (leNat d, p)

/-- `read_int8` (signed). -/
def readInt8 (buf : Bytes) (pos : Nat) : Except DErr (Int × Nat) := do
  let (d, p) ← readFmtBytes buf pos 1
  .ok (toSigned 8 (leNat d), p)

/-- `read_uint32` (little-endian). -/
def readUint32 (buf : Bytes) (pos : Nat) : Except DErr (Nat × Nat) := do
  let (d, p) ← readFmtBytes buf pos 4
  .ok (leNat d, p)

/-- `read_int32` (little-endian, signed). -/
def readInt32 (buf : Bytes) (pos : Nat) : Except DErr (Int × Nat) := do
  let (d, p) ← readFmtBytes buf pos 4
  .ok (toSigned 32 (leNat d), p)

/-- `read_int64` (little-endian, signed). -/
def readInt64 (buf : Bytes) (pos : Nat) : Except DErr (Int × Nat) := do
  let (d, p) ← readFmtBytes buf pos 8
  .ok (toSigned 64 (leNat d), p)

/-- `read_double`: the 8 raw little-endian IEEE-754 bytes (kept
uninterpreted — no numeric semantics of the float are needed). -/
def readDoubleRaw (buf : Bytes) (pos : Nat) : Except DErr (Bytes × Nat) :=
  readFmtBytes buf pos 8

/-- `read_bytes`: a signed 32-bit length prefix followed by an
unchecked `buf.read` of that many bytes (clamped; negative lengths read
the rest of the buffer). -/
def readBytesLP (buf : Bytes) (pos : Nat) : Except DErr (Bytes × Nat) := do
  let (slen, p) ← readInt32 buf pos
  .ok (pyRead buf p slen)

/-- `read_short_bytes`: a 1-byte length prefix followed by an unchecked
`buf.read`. -/
def readShortBytesLP (buf : Bytes) (pos : Nat) : Except DErr (Bytes × Nat) := do
  let (slen, p) ← readUint8 buf pos
  .ok (pyRead buf p (slen : Int))

/-! ### PostboxDecoder (`extract_messages.py` lines 63–188)

Python `str` values (from UTF-8 decoding with `errors='replace'`) are
kept as their raw wire bytes; the only key the scripts compare against
(`'_'`) is ASCII, where the decoding is injective, so byte-list
equality coincides with Python string equality.  `bytes.hex()` results
are the corresponding ASCII byte sequences (`hexAscii`). -/

/-- `PostboxDecoder.ValueType` (tags 0–13). -/
inductive VT where
  | int32 | int64 | bool | double | str | obj | int32Array | int64Array
  | objArray | objDict | bytes | nil | strArray | bytesArray
  deriving DecidableEq, Repr

/-- `ValueType(tag)`: `none` models the `ValueError` raised on a tag
outside 0–13. -/
def VT.ofTag : Nat → Option VT
  | 0 => some .int32
  | 1 => some .int64
  | 2 => some .bool
  | 3 => some .double
  | 4 => some .str
  | 5 => some .obj
  | 6 => some .int32Array
  | 7 => some .int64Array
  | 8 => some .objArray
  | 9 => some .objDict
  | 10 => some .bytes
  | 11 => some .nil
  | 12 => some .strArray
  | 13 => some .bytesArray
  | _ => none

/-- The Python values produced by the decoder.  `none` is Python
`None`; `str` carries raw UTF-8 bytes; `tup` is the 2-tuple used for
dictionary entries; `dict` is an insertion-ordered mapping. -/
inductive PyVal where
  | none
  | int (n : Int)
  | bool (b : Bool)
  | double (raw : Bytes)
  | str (s : Bytes)
  | tup (a b : PyVal)
  | list (vs : List PyVal)
  | dict (entries : List (Bytes × PyVal))

/-- Python `dict` assignment `d[k] = v`: update in place if the key
exists (keeping its position), else append. -/
def dictInsert (es : List (Bytes × PyVal)) (k : Bytes) (v : PyVal) :
    List (Bytes × PyVal) :=
  match es with
  | [] => [(k, v)]
  | (k', v') :: rest =>
    if k' = k then (k', v) :: rest else (k', v') :: dictInsert rest k v

/-- IEEE-754 double zero test on the 8 little-endian raw bytes
(exponent and mantissa all zero; the sign bit is ignored, so both
`0.0` and `-0.0` count). -/
def doubleIsZero (raw : Bytes) : Bool :=
  match raw with
  | [b0, b1, b2, b3, b4, b5, b6, b7] =>
    b0 = 0 && b1 = 0 && b2 = 0 && b3 = 0 && b4 = 0 && b5 = 0 && b6 = 0 &&
      b7 % 128 = 0
  | _ => false

/-- Python truthiness of a decoded value (`if v:`). -/
def PyVal.truthy : PyVal → Bool
  | .none => false
  | .int n => n ≠ 0
  | .bool b => b
  | .double raw => !doubleIsZero raw
  | .str s => !s.isEmpty
  | .tup _ _ => true
  | .list vs => !vs.isEmpty
  | .dict es => !es.isEmpty

/-- The schema-decoder registry (`PostboxDecoder.registry`): type-hash
to decoder.  In `extract_messages.py` the registry is empty at run
time; a registered decoder receives the payload bytes (it wraps them in
a fresh `PostboxDecoder`). -/
abbrev Registry := List (Int × (Bytes → PyVal))

/-- Registry lookup (`typeHash in self.registry`). -/
def findDecoder (reg : Registry) (th : Int) : Option (Bytes → PyVal) :=
  match reg with
  | [] => Option.none
  | (h, f) :: rest => if h = th then some f else findDecoder rest th

/-- ASCII bytes of `"@type"`. -/
def atTypeKey : Bytes := [64, 116, 121, 112, 101]

/-- ASCII bytes of `"type"`. -/
def typeKey : Bytes := [116, 121, 112, 101]

/-- ASCII bytes of `"data"`. -/
def dataKey : Bytes := [100, 97, 116, 97]

/-- The generic object mapping built by `_readObject` for an
unregistered type-hash: `{k: v for k, t, v in decoder._iter_kv()}`
followed by `value['@type'] = typeHash`. -/
def mkGeneric (th : Int) (kvs : List (Bytes × VT × PyVal)) : PyVal :=
  .dict (dictInsert (kvs.foldl (fun acc e => dictInsert acc e.1 e.2.2) []) atTypeKey (.int th))

/-- The element loop of the `Int32Array` case. -/
def readInt32List : Nat → Bytes → Nat → Except DErr (List Int × Nat)
  | 0, _, pos => .ok ([], pos)
  | count + 1, buf, pos => do
    let (n, p) ← readInt32 buf pos
    let (vs, p') ← readInt32List count buf p
    .ok (n :: vs, p')

/-- The element loop of the `Int64Array` case. -/
def readInt64List : Nat → Bytes → Nat → Except DErr (List Int × Nat)
  | 0, _, pos => .ok ([], pos)
  | count + 1, buf, pos => do
    let (n, p) ← readInt64 buf pos
    let (vs, p') ← readInt64List count buf p
    .ok (n :: vs, p')

/-- The element loop of the `StringArray` / `BytesArray` cases (both
call `read_bytes` per element). -/
def readBytesList : Nat → Bytes → Nat → Except DErr (List Bytes × Nat)
  | 0, _, pos => .ok ([], pos)
  | count + 1, buf, pos => do
    let (d, p) ← readBytesLP buf pos
    let (vs, p') ← readBytesList count buf p
    .ok (d :: vs, p')

mutual

/-- `PostboxDecoder.readValue` (lines 144–188).  `dec` is the effective
`decode` flag of `_readObject` (the callers in this repository always
leave `decodeObjects` at its default, which `_readObject` turns into
`True`).  The `fuel` argument bounds recursion depth; the canonical
call sites use `buffer length + 1`, which is always sufficient. -/
def readValue (reg : Registry) (dec : Bool) :
    Nat → Bytes → Nat → Except DErr (VT × PyVal × Nat)
  | 0, _, _ => .error .fuelOut
  | fuel + 1, buf, pos => do
    let (tagB, p) ← readUint8 buf pos
    match VT.ofTag tagB with
    | Option.none => .error .unknownTag
    | some .int32 => do
      let (n, p') ← readInt32 buf p
      .ok (.int32, .int n, p')
    | some .int64 => do
      let (n, p') ← readInt64 buf p
      .ok (.int64, .int n, p')
    | some .bool => do
      let (b, p') ← readUint8 buf p
      .ok (.bool, .bool (b ≠ 0), p')
    | some .double => do
      let (d, p') ← readDoubleRaw buf p
      .ok (.double, .double d, p')
    | some .str => do
      let (s, p') ← readBytesLP buf p
      .ok (.str, .str s, p')
    | some .obj => do
      let (v, p') ← readObject reg dec fuel buf p
      .ok (.obj, v, p')
    | some .int32Array => do
      let (alen, p') ← readInt32 buf p
      let (vs, p'') ← readInt32List alen.toNat buf p'
      .ok (.int32Array, .list (vs.map PyVal.int), p'')
    | some .int64Array => do
      let (alen, p') ← readInt32 buf p
      let (vs, p'') ← readInt64List alen.toNat buf p'
      .ok (.int64Array, .list (vs.map PyVal.int), p'')
    | some .objArray => do
      let (alen, p') ← readInt32 buf p
      let (vs, p'') ← readObjList reg dec fuel alen.toNat buf p'
      .ok (.objArray, .list vs, p'')
    | some .objDict => do
      let (dlen, p') ← readInt32 buf p
      let (vs, p'') ← readPairList reg dec fuel dlen.toNat buf p'
      .ok (.objDict, .list vs, p'')
    | some .bytes => do
      let (d, p') ← readBytesLP buf p
      .ok (.bytes, if d.isEmpty then .none else .str (hexAscii d), p')
    | some .nil => .ok (.nil, .none, p)
    | some .strArray => do
      let (alen, p') ← readInt32 buf p
      let (vs, p'') ← readBytesList alen.toNat buf p'
      .ok (.strArray, .list (vs.map PyVal.str), p'')
    | some .bytesArray => do
      let (alen, p') ← readInt32 buf p
      let (vs, p'') ← readBytesList alen.toNat buf p'
      .ok (.bytesArray, .list (vs.map fun d => PyVal.str (hexAscii d)), p'')
  termination_by structural fuel _ _ => fuel

/-- `PostboxDecoder._readObject` (lines 122–142): 4-byte type-hash,
4-byte payload length, the payload itself, then dispatch: `decode`
false → `{'type':…, 'data':…}`; registered hash → the registered
decoder on the payload; otherwise the generic mapping of the payload's
entries plus `'@type'`. -/
def readObject (reg : Registry) (dec : Bool) :
    Nat → Bytes → Nat → Except DErr (PyVal × Nat)
  | 0, _, _ => .error .fuelOut
  | fuel + 1, buf, pos => do
    let (th, p1) ← readInt32 buf pos
    let (dlen, p2) ← readInt32 buf p1
    let (data, p3) := pyRead buf p2 dlen
    if !dec then
      .ok (.dict [(typeKey, .int th), (dataKey, .str (hexAscii data))], p3)
    else
      match findDecoder reg th with
      | some f => .ok (f data, p3)
      | Option.none => do
        let kvs ← iterGo reg fuel data 0
        .ok (mkGeneric th kvs, p3)
  termination_by structural fuel _ _ => fuel

/-- `PostboxDecoder._iter_kv` (lines 111–120) after its `seek(0)`:
repeatedly read a short key and a value until the cursor reaches the
buffer length.  Nested decoders always use the default `decode`
(i.e. `True`). -/
def iterGo (reg : Registry) :
    Nat → Bytes → Nat → Except DErr (List (Bytes × VT × PyVal))
  | 0, buf, pos =>
    if buf.length ≤ pos then .ok [] else .error .fuelOut
  | fuel + 1, buf, pos =>
    if buf.length ≤ pos then .ok []
    else do
      let (key, p) ← readShortBytesLP buf pos
      let (t, v, p') ← readValue reg true fuel buf p
      let rest ← iterGo reg fuel buf p'
      .ok ((key, t, v) :: rest)
  termination_by structural fuel _ _ => fuel

/-- The element loop of the `ObjectArray` case. -/
def readObjList (reg : Registry) (dec : Bool) :
    Nat → Nat → Bytes → Nat → Except DErr (List PyVal × Nat)
  | _, 0, _, pos => .ok ([], pos)
  | 0, _ + 1, _, _ => .error .fuelOut
  | fuel + 1, count + 1, buf, pos => do
    let (v, p) ← readObject reg dec fuel buf pos
    let (vs, p') ← readObjList reg dec fuel count buf p
    .ok (v :: vs, p')
  termination_by structural fuel _ _ _ => fuel

/-- The element loop of the `ObjectDictionary` case: pairs of full
objects decoded positionally. -/
def readPairList (reg : Registry) (dec : Bool) :
    Nat → Nat → Bytes → Nat → Except DErr (List PyVal × Nat)
  | _, 0, _, pos => .ok ([], pos)
  | 0, _ + 1, _, _ => .error .fuelOut
  | fuel + 1, count + 1, buf, pos => do
    let (a, p) ← readObject reg dec fuel buf pos
    let (b, p') ← readObject reg dec fuel buf p
    let (vs, p'') ← readPairList reg dec fuel count buf p'
    .ok (.tup a b :: vs, p'')
  termination_by structural fuel _ _ _ => fuel

end

/-- Canonical recursion budget: one unit per consumed byte plus one. -/
def topFuel (data : Bytes) : Nat := data.length + 1

/-- `decodeAll`: the full key-value iteration of a buffer
(`_iter_kv` run to exhaustion, as in `_readObject`'s generic branch and
`list_chats.py`'s scans). -/
def decodeAll (reg : Registry) (data : Bytes) :
    Except DErr (List (Bytes × VT × PyVal)) :=
  iterGo reg (topFuel data) data 0

/-- `PostboxDecoder.get` (lines 99–109), lazily: scan entries from the
start; on the first entry whose key matches, return `(t, v)` if the
type matches (or no type filter was given), `(t, None)` if the entry is
`Nil`, and keep scanning otherwise; `(None, None)` at exhaustion.
Returns the final cursor position alongside (the `BytesIO` position
after the scan), which the stateful wrapper records. -/
def getGo (reg : Registry) (want : Option VT) (key : Bytes) :
    Nat → Bytes → Nat → Except DErr (Option (VT × Option PyVal)) × Nat
  | 0, buf, pos =>
    if buf.length ≤ pos then (.ok Option.none, pos) else (.error .fuelOut, pos)
  | fuel + 1, buf, pos =>
    if buf.length ≤ pos then (.ok Option.none, pos)
    else
      match readShortBytesLP buf pos with
      | .error e => (.error e, pos)
      | .ok (k, p) =>
        match readValue reg true fuel buf p with
        | .error e => (.error e, p)
        | .ok (t, v, p') =>
          if k ≠ key then getGo reg want key fuel buf p'
          else
            match want with
            | Option.none => (.ok (some (t, some v)), p')
            | some w =>
              if t = w then (.ok (some (t, some v)), p')
              else if t = VT.nil then (.ok (some (t, Option.none)), p')
              else getGo reg want key fuel buf p'

/-- `PostboxDecoder.get` on a fresh decoder over `buf`. -/
def get (reg : Registry) (want : Option VT) (key : Bytes) (buf : Bytes) :
    Except DErr (Option (VT × Option PyVal)) :=
  (getGo reg want key (topFuel buf) buf 0).1

/-- `PostboxDecoder.decodeObjectForKey` (lines 94–97): fetch the first
`Object`-typed entry for `key`; `if v: return v` — a missing entry, a
`Nil` match, and a falsy decoded object all come out as `None`. -/
def decodeObjectForKey (reg : Registry) (key : Bytes) (buf : Bytes) :
    Except DErr (Option PyVal) :=
  match get reg (some VT.obj) key buf with
  | .error e => .error e
  | .ok Option.none => .ok Option.none
  | .ok (some (_, Option.none)) => .ok Option.none
  | .ok (some (_, some v)) => if v.truthy then .ok (some v) else .ok Option.none

/-- ASCII bytes of `"_"`. -/
def rootKey : Bytes := [95]

/-- `PostboxDecoder.decodeRootObject`. -/
def decodeRootObject (reg : Registry) (buf : Bytes) : Except DErr (Option PyVal) :=
  decodeObjectForKey reg rootKey buf

/-! ### The stateful decoder object (for the idempotence claim)

A `PostboxDecoder` instance holds the buffer and a `BytesIO` cursor.
`_iter_kv` seeks the cursor back to offset 0 before each pass, so every
call scans from the start; the wrapper records where the scan stopped. -/

/-- A `PostboxDecoder` instance: buffer plus cursor. -/
structure PBDecoder where
  data : Bytes
  pos : Nat

/-- `decodeObjectForKey` on a decoder instance: the scan starts with
`seek(0)` and leaves the cursor where the scan stopped. -/
def PBDecoder.decodeObjectForKeyS (reg : Registry) (key : Bytes) (d : PBDecoder) :
    Except DErr (Option PyVal) × PBDecoder :=
  let (r, p) := getGo reg (some VT.obj) key (topFuel d.data) d.data 0
  (match r with
   | .error e => .error e
   | .ok Option.none => .ok Option.none
   | .ok (some (_, Option.none)) => .ok Option.none
   | .ok (some (_, some v)) => if v.truthy then .ok (some v) else .ok Option.none,
   ⟨d.data, p⟩)

/-! ### Message records (`extract_messages.py` lines 195–416)

The flag enums (`MessageFlags`, `MessageDataFlags`, `MessageTags`,
`FwdInfoFlags`) are `IntFlag`s; membership `f in flags` is the bit test
`flags & f == f`, and `flags == 0` is the zero test.  `FwdInfoFlags`
is constructed from `read_int8`; its flag bits all lie below bit 6, so
the bit tests and the zero test on the signed value coincide with
testing bits of the raw byte, which is what is modelled here. -/

/-- `MessageIndex` (lines 195–209): big-endian peerId / namespace /
timestamp / id decoded from a `t7` table key. -/
structure MessageIndex where
  peerId : Int
  ns : Int
  id : Int
  timestamp : Int
  deriving DecidableEq, Repr

/-- `read_fmt` big-endian reads for `MessageIndex.from_bytes`. -/
def readInt64BE (buf : Bytes) (pos : Nat) : Except DErr (Int × Nat) := do
  let (d, p) ← readFmtBytes buf pos 8
  .ok (toSigned 64 (beNat d), p)

/-- Big-endian `read_int32`. -/
def readInt32BE (buf : Bytes) (pos : Nat) : Except DErr (Int × Nat) := do
  let (d, p) ← readFmtBytes buf pos 4
  .ok (toSigned 32 (beNat d), p)

/-- `MessageIndex.from_bytes` (lines 202–209): peerId (int64),
namespace (int32), timestamp (int32), mid (int32), all big-endian. -/
def msgIndexFromBytes (b : Bytes) : Except DErr MessageIndex := do
  let (peerId, p) ← readInt64BE b 0
  let (ns, p) ← readInt32BE b p
  let (timestamp, p) ← readInt32BE b p
  let (mid, _) ← readInt32BE b p
  .ok { peerId := peerId, ns := ns, id := mid, timestamp := timestamp }

/-- `MessageFlags` members in definition order (lines 212–220). -/
def msgFlagDefs : List (String × Nat) :=
  [("Unsent", 1), ("Failed", 2), ("Incoming", 4), ("TopIndexable", 16),
   ("Sending", 32), ("CanBeGroupedIntoFeed", 64), ("WasScheduled", 128),
   ("CountedAsIncoming", 256)]

/-- `MessageTags` members in definition order (lines 232–243). -/
def msgTagDefs : List (String × Nat) :=
  [("PhotoOrVideo", 1), ("File", 2), ("Music", 4), ("WebPage", 8),
   ("VoiceOrInstantVideo", 16), ("UnseenPersonalMessage", 32),
   ("LiveLocation", 64), ("Gif", 128), ("Photo", 256), ("Video", 512),
   ("Pinned", 1024)]

/-- `for flag in Flags: if flag in flags: names.append(flag.name)` —
the symbolic names of the set bits, in member definition order. -/
def flagNames (defs : List (String × Nat)) (mask : Nat) : List String :=
  (defs.filter fun d => mask &&& d.2 == d.2).map (·.1)

/-- The decoded `ForwardInfo` block (lines 254–296). -/
structure FwdInfo where
  authorId : Int
  date : Int
  sourceId : Option Int
  sourceMessagePeerId : Option Int
  sourceMessageNamespace : Option Int
  sourceMessageIdId : Option Int
  signature : Option Bytes
  psaType : Option Bytes
  flags : Option Int

/-- `read_intermediate_fwd_info` (lines 254–296): a flags byte (zero
means no block), then authorId and date unconditionally, then each
gated field per its bit. -/
def read_intermediate_fwd_info (buf : Bytes) (pos : Nat) :
    Except DErr (Option FwdInfo × Nat) := do
  let (fb, p) ← readUint8 buf pos
  if fb = 0 then .ok (Option.none, p)
  else do
    let (authorId, p) ← readInt64 buf p
    let (date, p) ← readInt32 buf p
    let (sourceId, p) ←
      if fb.testBit 1 then do
        let (x, p) ← readInt64 buf p; .ok (some x, p)
      else .ok (Option.none, p)
    let (smPeerId, smNs, smId, p) ←
      if fb.testBit 2 then do
        let (a, p) ← readInt64 buf p
        let (b, p) ← readInt32 buf p
        let (c, p) ← readInt32 buf p
        .ok (some a, some b, some c, p)
      else .ok (Option.none, Option.none, Option.none, p)
    let (signature, p) ←
      if fb.testBit 3 then do
        let (s, p) ← readBytesLP buf p; .ok (some s, p)
      else .ok (Option.none, p)
    let (psaType, p) ←
      if fb.testBit 4 then do
        let (s, p) ← readBytesLP buf p; .ok (some s, p)
      else .ok (Option.none, p)
    let (flags, p) ←
      if fb.testBit 5 then do
        let (x, p) ← readInt32 buf p; .ok (some x, p)
      else .ok (Option.none, p)
    .ok (some { authorId := authorId, date := date, sourceId := sourceId,
                sourceMessagePeerId := smPeerId, sourceMessageNamespace := smNs,
                sourceMessageIdId := smId, signature := signature,
                psaType := psaType, flags := flags }, p)

/-- The dictionary returned by `read_intermediate_message_complete` on
success (lines 394–410).  `groupInfoStableId` is read from the wire but
not included in the result, exactly as in the source. -/
structure MsgRec where
  stableId : Nat
  stableVersion : Nat
  globallyUniqueId : Option Int
  authorId : Option Int
  text : Bytes
  flags : List String
  tags : List String
  forwarded : Option FwdInfo
  attributes : List PyVal
  embeddedMedia : List PyVal
  referencedMediaIds : List (Int × Int)
  groupingKey : Option Int
  threadId : Option Int
  globalTags : Option Nat
  localTags : Option Nat

/-- ASCII bytes of `"raw"`. -/
def rawKey : Bytes := [114, 97, 119]

/-- The canonical root decode of an attribute / media blob:
`PostboxDecoder(data).decodeRootObject()`. -/
def decodeRootTop (reg : Registry) (d : Bytes) : Except DErr (Option PyVal) :=
  decodeRootObject reg d

/-- One item of the attribute / embedded-media loops (lines 352–358 and
363–369): decode the blob as a root object; any exception is caught and
replaced by the `{'raw': data.hex()}` fallback dictionary. -/
def decodeWithFallback (reg : Registry) (d : Bytes) : PyVal :=
  match decodeRootTop reg d with
  | .ok (some v) => v
  | .ok Option.none => .none
  | .error _ => .dict [(rawKey, .str (hexAscii d))]

/-- The attribute / embedded-media loop: `count` times, read a
length-prefixed blob and decode it with the per-item fallback. -/
def readItemsLoop (reg : Registry) :
    Nat → Bytes → Nat → Except DErr (List PyVal × Nat)
  | 0, _, pos => .ok ([], pos)
  | count + 1, buf, pos => do
    let (d, p) ← readBytesLP buf pos
    let v := decodeWithFallback reg d
    let (vs, p') ← readItemsLoop reg count buf p
    .ok (v :: vs, p')

/-- The referenced-media-id loop (lines 372–380): `count` pairs of
(namespace int32, id int64). -/
def readRefIds : Nat → Bytes → Nat → Except DErr (List (Int × Int) × Nat)
  | 0, _, pos => .ok ([], pos)
  | count + 1, buf, pos => do
    let (ns, p) ← readInt32 buf pos
    let (i, p') ← readInt64 buf p
    let (rest, p'') ← readRefIds count buf p'
    .ok ((ns, i) :: rest, p'')

/-- The decode of a complete (discriminant-zero) message record from
position `p0` on: all steps of `read_intermediate_message_complete`
after the discriminant check (lines 308–410).  Any read failure escapes
as an `Except` error, to be caught by the record-level handler. -/
def readMessageRest (reg : Registry) (v : Bytes) (p0 : Nat) :
    Except DErr MsgRec := do
    let (stableId, p) ← readUint32 v p0
    let (stableVer, p) ← readUint32 v p
    let (dataFlags, p) ← readUint8 v p
    let (globallyUniqueId, p) ←
      if dataFlags.testBit 0 then do
        let (x, p) ← readInt64 v p; .ok (some x, p)
      else .ok (Option.none, p)
    let (globalTags, p) ←
      if dataFlags.testBit 1 then do
        let (x, p) ← readUint32 v p; .ok (some x, p)
      else .ok (Option.none, p)
    let (groupingKey, p) ←
      if dataFlags.testBit 2 then do
        let (x, p) ← readInt64 v p; .ok (some x, p)
      else .ok (Option.none, p)
    let (_groupInfoStableId, p) ←
      if dataFlags.testBit 3 then do
        let (x, p) ← readUint32 v p; .ok (some x, p)
      else .ok (Option.none, p)
    let (localTagsVal, p) ←
      if dataFlags.testBit 4 then do
        let (x, p) ← readUint32 v p; .ok (some x, p)
      else .ok (Option.none, p)
    let (threadId, p) ←
      if dataFlags.testBit 5 then do
        let (x, p) ← readInt64 v p; .ok (some x, p)
      else .ok (Option.none, p)
    let (flagsMask, p) ← readUint32 v p
    let (tagsMask, p) ← readUint32 v p
    let (fwdInfo, p) ← read_intermediate_fwd_info v p
    let (hasAuthorId, p) ← readInt8 v p
    let (authorId, p) ←
      if hasAuthorId = 1 then do
        let (a, p) ← readInt64 v p; .ok (some a, p)
      else .ok (Option.none, p)
    let (text, p) ← readBytesLP v p
    let (attributesCount, p) ← readInt32 v p
    let (attributes, p) ← readItemsLoop reg attributesCount.toNat v p
    let (embeddedMediaCount, p) ← readInt32 v p
    let (embeddedMedia, p) ← readItemsLoop reg embeddedMediaCount.toNat v p
    let (referencedMediaIdsCount, p) ← readInt32 v p
    let (referencedMediaIds, _) ← readRefIds referencedMediaIdsCount.toNat v p
    .ok
      { stableId := stableId, stableVersion := stableVer,
        globallyUniqueId := globallyUniqueId, authorId := authorId,
        text := text, flags := flagNames msgFlagDefs flagsMask,
        tags := flagNames msgTagDefs tagsMask, forwarded := fwdInfo,
        attributes := attributes, embeddedMedia := embeddedMedia,
        referencedMediaIds := referencedMediaIds, groupingKey := groupingKey,
        threadId := threadId, globalTags := globalTags,
        localTags := localTagsVal }

/-- The body of `read_intermediate_message_complete` inside its `try:`
(lines 303–410): dispatch on the 1-byte record-type discriminant —
`None` when it is non-zero, otherwise the decoded record. -/
def readMessageBody (reg : Registry) (v : Bytes) : Except DErr (Option MsgRec) := do
  let (typ, p) ← readInt8 v 0
  if typ ≠ 0 then .ok Option.none
  else (readMessageRest reg v p).map some

/-- The outcome of `read_intermediate_message_complete` when it does
not return `None`: either the decoded record, or the
`{'error':…, 'raw_hex': v.hex()[:200]}` error placeholder. -/
inductive MsgResult where
  | record (m : MsgRec)
  | err (e : DErr) (rawHex : Bytes)

/-- `read_intermediate_message_complete` (lines 299–416): `None` for a
non-zero discriminant; otherwise the record, with any exception turned
into the error placeholder carrying the first 200 hex characters of the
value bytes. -/
def read_intermediate_message_complete (reg : Registry) (v : Bytes) :
    Option MsgResult :=
  match readMessageBody reg v with
  | .ok Option.none => Option.none
  | .ok (some m) => some (.record m)
  | .error e => some (.err e ((hexAscii v).take 200))

/-- One plaintext record of the message table: key bytes and value
bytes. -/
structure KVRec where
  key : Bytes
  value : Bytes

/-- The record loop of `extract_complete_chat` (lines 473–529),
restricted to the in-scope decode pipeline: per record, decode the
`MessageIndex` from the key (an exception skips the record), filter by
peer id, decode the value (a `None` — unsupported discriminant — skips
the record), enrich with the author lookup (`get_peer_info`, a
read-through query modelled as the function `peerLookup`; it cannot
raise), and append.  The datetime / JSON formatting of `message_data`
is downstream output formatting and is not modelled. -/
def scanRecord (reg : Registry) (peerLookup : Int → Option PyVal)
    (peerId : Int) (r : KVRec) :
    Option (MessageIndex × MsgResult × Option PyVal) :=
  match msgIndexFromBytes r.key with
  | .error _ => Option.none
  | .ok idx =>
    if idx.peerId ≠ peerId then Option.none
    else
      match read_intermediate_message_complete reg r.value with
      | Option.none => Option.none
      | some m =>
        let authorInfo :=
          match m with
          | .record mr =>
            match mr.authorId with
            | some a => if a ≠ 0 then peerLookup a else Option.none
            | Option.none => Option.none
          | .err _ _ => Option.none
        some (idx, m, authorInfo)

/-- The whole scan: one `scanRecord` per table row, skips dropped. -/
def extract_complete_chat_scan (reg : Registry) (peerLookup : Int → Option PyVal)
    (peerId : Int) (recs : List KVRec) :
    List (MessageIndex × MsgResult × Option PyVal) :=
  recs.filterMap (scanRecord reg peerLookup peerId)

/-! ### MediaIdentity (`create_media_index.py` lines 14–56)

These functions run over the JSON-decoded message file, so their inputs
are ordinary JSON values (`JVal`), with Lean `String` keys.  Python
f-string interpolation of a field is `pyStr`. -/

/-- A JSON value as loaded by `json.load`. -/
inductive JVal where
  | null
  | int (n : Int)
  | str (s : String)
  | list (vs : List JVal)
  | dict (kvs : List (String × JVal))

/-- Dictionary key lookup (`k in d` / `d[k]` / `d.get(k)`); JSON object
keys are unique. -/
def jget (kvs : List (String × JVal)) (k : String) : Option JVal :=
  match kvs with
  | [] => Option.none
  | (k', v) :: rest => if k' = k then some v else jget rest k

/-- `d.get(k)` followed by an `is not None` test: a stored JSON `null`
behaves like a missing key. -/
def jgetNN (kvs : List (String × JVal)) (k : String) : Option JVal :=
  match jget kvs k with
  | some .null => Option.none
  | r => r

/-- Python `str()` of a JSON scalar as used in the f-strings (the media
fields hold scalars; containers do not occur in identifier positions). -/
def pyStr : JVal → String
  | .null => "None"
  | .int n => toString n
  | .str s => s
  | .list _ => "<list>"
  | .dict _ => "<dict>"

/-- `parse_media_ids` (lines 14–42): from an embedded media object,
collect one `telegram-cloud-photo-size-<dc>-<photoId>-<size>` per
representation entry whose nested resource carries `d` and `i` (size
label `s` defaulting to `'x'`), then, if the object instead carries a
single resource with `d` and `f`, one
`telegram-cloud-document-<dc>-<fileId>`. -/
def parse_media_ids (mediaObj : JVal) : List String :=
  match mediaObj with
  | .dict kvs =>
    let photoIds : List String :=
      match jget kvs "r" with
      | some (.list reps) =>
        reps.flatMap fun rep =>
          match rep with
          | .dict repKvs =>
            match jget repKvs "r" with
            | some (.dict resKvs) =>
              match jget resKvs "d", jget resKvs "i" with
              | some dc, some photoId =>
                let size := (jget resKvs "s").getD (.str "x")
                ["telegram-cloud-photo-size-" ++ pyStr dc ++ "-" ++
                  pyStr photoId ++ "-" ++ pyStr size]
              | _, _ => []
            | _ => []
          | _ => []
      | _ => []
    let docIds : List String :=
      match jget kvs "r" with
      | some (.dict resKvs) =>
        match jget resKvs "d", jget resKvs "f" with
        | some dc, some fileId =>
          ["telegram-cloud-document-" ++ pyStr dc ++ "-" ++ pyStr fileId]
        | _, _ => []
      | _ => []
    photoIds ++ docIds
  | _ => []

/-- `extract_referenced_media_id` (lines 45–56): a referenced-media
pair dictionary with non-`None` `namespace` and `id` yields exactly
`telegram-cloud-document-<namespace>-<id>`. -/
def extract_referenced_media_id (ref : JVal) : Option String :=
  match ref with
  | .dict kvs =>
    match jgetNN kvs "namespace", jgetNN kvs "id" with
    | some ns, some mediaId =>
      some ("telegram-cloud-document-" ++ pyStr ns ++ "-" ++ pyStr mediaId)
    | _, _ => Option.none
  | _ => Option.none

/-! ### Helper lemmas -/

lemma VT.ofTag_eq_none (b : Nat) (h : 13 < b) : VT.ofTag b = Option.none := by
  obtain ⟨k, rfl⟩ : ∃ k, b = k + 14 := ⟨b - 14, by omega⟩
  rfl

lemma except_bind_ok {α β : Type} (a : α) (f : α → Except DErr β) :
    (Except.ok a >>= f) = f a := rfl

lemma except_bind_err {α β : Type} (e : DErr) (f : α → Except DErr β) :
    ((Except.error e : Except DErr α) >>= f) = .error e := rfl

/-- A `read_fmt` read that would run past a truncated buffer fails with
`EOFError`. -/
lemma readFmtBytes_take_fail (B : Bytes) (t pos n : Nat)
    (hn : 0 < n) (h : t < pos + n) (ht : t ≤ B.length) :
    readFmtBytes (B.take t) pos n = .error .truncated := by
  unfold readFmtBytes
  have hd : (((B.take t).drop pos).take n).length < n := by
    have h1 : (((B.take t).drop pos).take n).length
        = min n (min t B.length - pos) := by
      rw [List.length_take, List.length_drop, List.length_take]
    rw [h1]
    omega
  rw [if_pos hd]

/-- A `read_fmt` read that fits inside the truncation reads the same
bytes as from the full buffer. -/
lemma readFmtBytes_take_ok (B : Bytes) (t pos n : Nat)
    (h : pos + n ≤ t) (ht : t ≤ B.length) :
    readFmtBytes (B.take t) pos n = .ok ((B.drop pos).take n, pos + n) := by
  unfold readFmtBytes
  rw [List.drop_take, List.take_take]
  have hmin : min n (t - pos) = n := by omega
  rw [hmin]
  have hd : ((B.drop pos).take n).length = n := by
    simp only [List.length_take, List.length_drop]
    omega
  simp [hd]

lemma parse_plain_ok (data k s : Bytes) (w : Bool)
    (h : tempkey_parse_plain data = .ok ((k, s), w)) :
    k = data.take 32 ∧ s = (data.drop 32).take 16 := by
  unfold tempkey_parse_plain at h
  cases hu : unpackI32LE ((data.drop 48).take 4) with
  | none => rw [hu] at h; exact absurd h (by simp)
  | some dbHash =>
    rw [hu] at h
    dsimp only at h
    by_cases hm : dbHash = murmur (data.take 32 ++ (data.drop 32).take 16)
    · rw [if_neg (by simp [hm])] at h
      simp only [Except.ok.injEq, Prod.mk.injEq] at h
      exact ⟨h.1.1.symm, h.1.2.symm⟩
    · rw [if_pos (by simpa using hm)] at h
      exact absurd h (by simp)

/-- The stateful `decodeObjectForKey` in terms of the stateless one:
the value returned is a function of the buffer alone (the scan starts
with `seek(0)`), and the instance keeps its buffer. -/
lemma decodeS_spec (reg : Registry) (key : Bytes) (d : PBDecoder) :
    PBDecoder.decodeObjectForKeyS reg key d =
      (decodeObjectForKey reg key d.data,
       ⟨d.data, (getGo reg (some VT.obj) key (topFuel d.data) d.data 0).2⟩) := by
  unfold PBDecoder.decodeObjectForKeyS decodeObjectForKey get
  rcases hE : getGo reg (some VT.obj) key (topFuel d.data) d.data 0 with ⟨r, p⟩
  simp only [hE]

/-! ### Claims -/

/-- C5: for every buffer position whose single-byte value tag lies
outside 0–13, `readValue` fails with a hard `UnknownTag` error rather
than producing a value (for any registry, decode flag, and positive
recursion budget). -/
theorem c5_unknown_tag_aborts (reg : Registry) (dec : Bool) (fuel : Nat)
    (buf : Bytes) (pos b p : Nat) (hread : readUint8 buf pos = .ok (b, p))
    (hb : 13 < b) :
    readValue reg dec (fuel + 1) buf pos = .error .unknownTag := by
  unfold readValue
  rw [hread, except_bind_ok]
  simp only [VT.ofTag_eq_none b hb]

/-- Witness for C5: tag byte 14 at offset 0. -/
theorem c5_unknown_tag_aborts_witness :
    readValue [] true 1 [14] 0 = .error .unknownTag :=
  c5_unknown_tag_aborts [] true 0 [14] 0 14 1 rfl (by norm_num)

/-- C8: `_readObject` on a nested object whose type-hash has no
registered schema decoder returns the generic mapping of the payload's
key/value entries annotated with the raw type-hash under `'@type'`
(provided the payload's entries decode); when the hash is registered,
it returns the registered decoder's output on the payload instead. -/
theorem c8_unknown_hash_generic (reg : Registry) (fuel : Nat) (buf : Bytes)
    (pos : Nat) (th dlen : Int) (p1 p2 : Nat) (data : Bytes) (p3 : Nat)
    (h1 : readInt32 buf pos = .ok (th, p1))
    (h2 : readInt32 buf p1 = .ok (dlen, p2))
    (h3 : pyRead buf p2 dlen = (data, p3)) :
    (∀ f, findDecoder reg th = some f →
      readObject reg true (fuel + 1) buf pos = .ok (f data, p3)) ∧
    (findDecoder reg th = Option.none → ∀ kvs,
      iterGo reg fuel data 0 = .ok kvs →
      readObject reg true (fuel + 1) buf pos = .ok (mkGeneric th kvs, p3)) := by
  unfold readObject
  simp only [h1, except_bind_ok, h2, h3]
  constructor
  · intro f hf
    simp only [hf, Bool.not_true, Bool.false_eq_true, if_false]
  · intro hnone kvs hkvs
    simp only [hnone, Bool.not_true, Bool.false_eq_true, if_false, hkvs,
      except_bind_ok]

/-- Witness for C8: an unregistered type-hash (7) over an empty
payload decodes to `{'@type': 7}`. -/
theorem c8_unknown_hash_generic_witness :
    readObject [] true 1 [7, 0, 0, 0, 0, 0, 0, 0] 0 =
      .ok (mkGeneric 7 [], 8) :=
  (c8_unknown_hash_generic [] 0 [7, 0, 0, 0, 0, 0, 0, 0] 0 7 0 4 8 [] 8
    rfl rfl rfl).2 rfl [] rfl

/-- C9: decoding is a function of the buffer alone.  Two decoder
instances over the same bytes give identical output whatever their
cursor positions (the key-value iteration seeks the cursor back to 0
before each pass); running `decodeObjectForKey` a second time on the
same instance — whose cursor the first pass moved — returns the same
output again, and the buffer is untouched. -/
theorem c9_idempotent (reg : Registry) (key : Bytes) (d1 d2 : PBDecoder)
    (hdata : d1.data = d2.data) :
    (PBDecoder.decodeObjectForKeyS reg key d1).1 =
      (PBDecoder.decodeObjectForKeyS reg key d2).1 ∧
    ((PBDecoder.decodeObjectForKeyS reg key d1).2).data = d1.data ∧
    (PBDecoder.decodeObjectForKeyS reg key
        ((PBDecoder.decodeObjectForKeyS reg key d1).2)).1 =
      (PBDecoder.decodeObjectForKeyS reg key d1).1 := by
  refine ⟨?_, ?_, ?_⟩
  · rw [decodeS_spec, decodeS_spec, hdata]
  · rw [decodeS_spec]
  · rw [decodeS_spec reg key d1,
      decodeS_spec reg key ⟨d1.data, (getGo reg (some VT.obj) key (topFuel d1.data) d1.data 0).2⟩]

/-- Witness for C9: a one-entry buffer decoded from cursor positions 0
and 3. -/
theorem c9_idempotent_witness :
    (PBDecoder.decodeObjectForKeyS [] rootKey ⟨[1, 95, 11], 0⟩).1 =
      (PBDecoder.decodeObjectForKeyS [] rootKey ⟨[1, 95, 11], 3⟩).1 ∧
    ((PBDecoder.decodeObjectForKeyS [] rootKey ⟨[1, 95, 11], 0⟩).2).data =
      ([1, 95, 11] : Bytes) ∧
    (PBDecoder.decodeObjectForKeyS [] rootKey
        ((PBDecoder.decodeObjectForKeyS [] rootKey ⟨[1, 95, 11], 0⟩).2)).1 =
      (PBDecoder.decodeObjectForKeyS [] rootKey ⟨[1, 95, 11], 0⟩).1 :=
  c9_idempotent [] rootKey ⟨[1, 95, 11], 0⟩ ⟨[1, 95, 11], 3⟩ rfl

/-- C10: whenever the first matching `Object` entry for a key decodes
to a Python-falsy value (for example an empty mapping produced by a
registered decoder), `decodeObjectForKey` returns absent — a
present-but-falsy object is indistinguishable from a missing one. -/
theorem c10_falsy_object_absent (reg : Registry) (key buf : Bytes)
    (t : VT) (v : PyVal)
    (hget : get reg (some VT.obj) key buf = .ok (some (t, some v)))
    (hfalsy : v.truthy = false) :
    decodeObjectForKey reg key buf = .ok Option.none := by
  unfold decodeObjectForKey
  rw [hget]
  simp [hfalsy]

/-- Witness for C10: a registered decoder for type-hash 1 returning an
empty dict; the buffer holds a `'_' → Object(hash 1)` entry. -/
theorem c10_falsy_object_absent_witness :
    decodeObjectForKey [(1, fun _ => PyVal.dict [])] rootKey
      [1, 95, 5, 1, 0, 0, 0, 0, 0, 0, 0] = .ok Option.none :=
  c10_falsy_object_absent [(1, fun _ => PyVal.dict [])] rootKey
    [1, 95, 5, 1, 0, 0, 0, 0, 0, 0, 0] VT.obj (PyVal.dict []) rfl rfl

/-- C2: with at least the 52 plaintext bytes the format stores,
`tempkey_parse` fails with `KeyVerificationFailed` (the hash-mismatch
exception) exactly when the murmur checksum recomputed over
key (bytes 0:32) concatenated with salt (bytes 32:48) differs from the
stored little-endian signed 32-bit value at bytes 48:52; and it never
fails any other way — in particular non-zero padding at bytes 52:64
only sets the warning, never a failure. -/
theorem c2_checksum_iff (data : Bytes) (h : 52 ≤ data.length) :
    ((tempkey_parse_plain data = .error .hashMismatch) ↔
      toSigned 32 (leNat ((data.drop 48).take 4)) ≠
        murmur (data.take 32 ++ (data.drop 32).take 16)) ∧
    tempkey_parse_plain data ≠ .error .structError := by
  have hlen : ((data.drop 48).take 4).length = 4 := by
    simp only [List.length_take, List.length_drop]
    omega
  unfold tempkey_parse_plain unpackI32LE
  rw [if_pos hlen]
  by_cases hc : toSigned 32 (leNat ((data.drop 48).take 4)) =
      murmur (data.take 32 ++ (data.drop 32).take 16)
  · simp [hc]
  · simp [hc]

/-- Witness for C2: the all-zero 64-byte plaintext (whose stored
checksum 0 differs from the recomputed murmur). -/
theorem c2_checksum_iff_witness :
    ((tempkey_parse_plain (List.replicate 64 0) = .error .hashMismatch) ↔
      toSigned 32 (leNat (((List.replicate 64 0 : Bytes).drop 48).take 4)) ≠
        murmur ((List.replicate 64 0 : Bytes).take 32 ++
          ((List.replicate 64 0 : Bytes).drop 32).take 16)) ∧
    tempkey_parse_plain (List.replicate 64 0) ≠ .error .structError :=
  c2_checksum_iff (List.replicate 64 0) (by simp)

/-- C3: the key-derivation slices the wide digest of the passphrase
into the first 32 bytes (key) and last 16 bytes (IV); the container is
CBC-decrypted with them, and a successful (verified) parse returns
plaintext bytes 0:32 as the database key and bytes 32:48 as the salt.
The SHA-512 and AES-CBC primitives are external library calls, taken
as function parameters. -/
theorem c3_kdf_and_partition (sha512 : Bytes → Bytes)
    (aesCBCdecrypt : Bytes → Bytes → Bytes → Bytes) (pwd enc : Bytes)
    (key salt : Bytes) (warn : Bool)
    (h : tempkey_parse sha512 aesCBCdecrypt enc pwd = .ok ((key, salt), warn)) :
    tempkey_kdf sha512 pwd =
      ((sha512 pwd).take 32, (sha512 pwd).drop ((sha512 pwd).length - 16)) ∧
    key = (aesCBCdecrypt ((sha512 pwd).take 32)
      ((sha512 pwd).drop ((sha512 pwd).length - 16)) enc).take 32 ∧
    salt = ((aesCBCdecrypt ((sha512 pwd).take 32)
      ((sha512 pwd).drop ((sha512 pwd).length - 16)) enc).drop 32).take 16 := by
  refine ⟨rfl, ?_⟩
  have h' : tempkey_parse_plain (aesCBCdecrypt ((sha512 pwd).take 32)
      ((sha512 pwd).drop ((sha512 pwd).length - 16)) enc) = .ok ((key, salt), warn) := h
  exact parse_plain_ok _ _ _ _ h'

/-- Concrete plaintext for the C3 witness: correct checksum, zero pad. -/
def c3GoodPlain : Bytes :=
  List.replicate 48 0 ++ int32LE (murmur (List.replicate 48 0)) ++
    List.replicate 12 0

/-- Witness for C3: a (dummy) digest function and a decryption function
returning a correctly-checksummed plaintext; parsing succeeds and the
theorem applies. -/
theorem c3_kdf_and_partition_witness :
    tempkey_kdf (fun _ => List.range 64) [] =
      (((fun (_ : Bytes) => List.range 64) []).take 32,
       ((fun (_ : Bytes) => List.range 64) []).drop
         (((fun (_ : Bytes) => List.range 64) []).length - 16)) ∧
    List.replicate 32 0 = ((fun (_ : Bytes) (_ : Bytes) (_ : Bytes) => c3GoodPlain)
      (((fun (_ : Bytes) => List.range 64) []).take 32)
      (((fun (_ : Bytes) => List.range 64) []).drop
        (((fun (_ : Bytes) => List.range 64) []).length - 16)) []).take 32 ∧
    List.replicate 16 0 = (((fun (_ : Bytes) (_ : Bytes) (_ : Bytes) => c3GoodPlain)
      (((fun (_ : Bytes) => List.range 64) []).take 32)
      (((fun (_ : Bytes) => List.range 64) []).drop
        (((fun (_ : Bytes) => List.range 64) []).length - 16)) []).drop 32).take 16 :=
  c3_kdf_and_partition (fun _ => List.range 64)
    (fun _ _ _ => c3GoodPlain) [] [] (List.replicate 32 0)
    (List.replicate 16 0) false (by rfl)

/-! ### C7: media identifiers -/

/-- A representation entry `{r: {d:…, i:…[, s:…]}}` as produced by the
decoder for embedded photo media. -/
def mkPhotoRep (d i : Int) (s : Option JVal) : JVal :=
  .dict [("r", .dict ([("d", .int d), ("i", .int i)] ++
    (match s with | some v => [("s", v)] | Option.none => [])))]

/-- An embedded media object carrying a list of representation
entries under `'r'`. -/
def mkEmbedded (reps : List (Int × Int × Option JVal)) : JVal :=
  .dict [("r", .list (reps.map fun r => mkPhotoRep r.1 r.2.1 r.2.2))]

/-- The identifier the spec assigns to one representation. -/
def photoIdOf (r : Int × Int × Option JVal) : String :=
  "telegram-cloud-photo-size-" ++ toString r.1 ++ "-" ++ toString r.2.1 ++
    "-" ++ (match r.2.2 with | some v => pyStr v | Option.none => "x")

/-- A referenced-media pair dictionary `{namespace: n, id: i}`. -/
def mkRef (n i : Int) : JVal :=
  .dict [("namespace", .int n), ("id", .int i)]

lemma repPhotoId (d i : Int) (s : Option JVal) :
    parse_media_ids (mkEmbedded [(d, i, s)]) = [photoIdOf (d, i, s)] := by
  cases s <;> rfl

/-- C7: an embedded media object whose representation entries expose
datacenter `d` and photo-id `i` yields one
`telegram-cloud-photo-size-<d>-<i>-<s>` per representation, the size
label defaulting to the sentinel `x` when absent; and a
referenced-media pair `(namespace, id)` yields exactly one
`telegram-cloud-document-<namespace>-<id>`. -/
theorem c7_media_identifiers (reps : List (Int × Int × Option JVal)) (n i : Int) :
    parse_media_ids (mkEmbedded reps) = reps.map photoIdOf ∧
    extract_referenced_media_id (mkRef n i) =
      some ("telegram-cloud-document-" ++ toString n ++ "-" ++ toString i) := by
  constructor
  · induction reps with
    | nil => rfl
    | cons hd tl ih =>
      obtain ⟨d, i', s⟩ := hd
      have hcons : parse_media_ids (mkEmbedded ((d, i', s) :: tl)) =
          parse_media_ids (mkEmbedded [(d, i', s)]) ++
            parse_media_ids (mkEmbedded tl) := by
        cases s <;>
          simp [parse_media_ids, mkEmbedded, mkPhotoRep, jget, List.flatMap_cons]
      rw [hcons, repPhotoId, ih, List.map_cons, List.singleton_append]
  · rfl

/-! ### C6: per-item fallback in the attribute / media loops -/

/-- Specification helper: the sequence of `count` length-prefixed blobs
at a buffer position (what the item loop reads before decoding). -/
def readBytesSeq : Nat → Bytes → Nat → Except DErr (List Bytes × Nat)
  | 0, _, pos => .ok ([], pos)
  | count + 1, buf, pos => do
    let (d, p) ← readBytesLP buf pos
    let (ds, p') ← readBytesSeq count buf p
    .ok (d :: ds, p')

/-- C6: whenever the `count` raw blobs of an attribute / embedded-media
array are readable, the item loop never aborts: it returns exactly one
decoded value per blob (in order), each obtained by the guarded decode;
and any blob whose root decode raises is replaced by the
`{'raw': blob.hex()}` fallback, decoding of the remaining items
continuing. -/
theorem c6_item_fallback (reg : Registry) (count : Nat) (buf : Bytes)
    (pos : Nat) (ds : List Bytes) (p : Nat)
    (h : readBytesSeq count buf pos = .ok (ds, p)) :
    readItemsLoop reg count buf pos = .ok (ds.map (decodeWithFallback reg), p) ∧
    (∀ d e, decodeRootTop reg d = .error e →
      decodeWithFallback reg d = .dict [(rawKey, .str (hexAscii d))]) := by
  constructor
  · induction count generalizing pos ds with
    | zero =>
      unfold readBytesSeq at h
      simp only [Except.ok.injEq, Prod.mk.injEq] at h
      rw [← h.1, ← h.2]
      rfl
    | succ c ih =>
      unfold readBytesSeq at h
      cases hb : readBytesLP buf pos with
      | error e => rw [hb, except_bind_err] at h; exact absurd h (by simp)
      | ok dp =>
        obtain ⟨d, p1⟩ := dp
        rw [hb, except_bind_ok] at h
        dsimp only at h
        cases hs : readBytesSeq c buf p1 with
        | error e => rw [hs, except_bind_err] at h; exact absurd h (by simp)
        | ok dsp =>
          obtain ⟨ds', p2⟩ := dsp
          rw [hs, except_bind_ok] at h
          dsimp only at h
          simp only [Except.ok.injEq, Prod.mk.injEq] at h
          obtain ⟨h1, h2⟩ := h
          subst h2
          subst h1
          unfold readItemsLoop
          rw [hb, except_bind_ok]
          dsimp only
          rw [ih p1 ds' hs, except_bind_ok]
          rfl
  · intro d e hd
    unfold decodeWithFallback
    rw [hd]

/-- Buffer for the C6 witness: two blobs, an empty one and one whose
root decode hits an unknown tag. -/
def c6buf : Bytes := [0, 0, 0, 0, 3, 0, 0, 0, 1, 95, 14]

/-- Witness for C6: on `c6buf` the loop decodes both items, the second
falling back to the raw-hex dictionary. -/
theorem c6_item_fallback_witness :
    readItemsLoop [] 2 c6buf 0 =
      .ok (([[], [1, 95, 14]] : List Bytes).map (decodeWithFallback []), 11) ∧
    (∀ d e, decodeRootTop [] d = .error e →
      decodeWithFallback [] d = .dict [(rawKey, .str (hexAscii d))]) :=
  c6_item_fallback [] 2 c6buf 0 [[], [1, 95, 14]] 11 rfl

/-! ### C1: truncation behaviour of the key-value decoding -/

/-- Wire encoding of a single entry with an `Int32` value: 1-byte key
length, key bytes, tag 0, 4-byte little-endian value. -/
def encodeInt32Entry (key : Bytes) (n : Int) : Bytes :=
  [key.length] ++ key ++ [0] ++ int32LE n

/-- Wire encoding of a single entry with a `Bytes` value: 1-byte key
length, key bytes, tag 10, 4-byte length, payload. -/
def encodeBytesEntry (key : Bytes) (d : Bytes) : Bytes :=
  [key.length] ++ key ++ [10] ++ int32LE (d.length : Int) ++ d

/-- A well-formed one-entry buffer with a 4-byte `Bytes` payload. -/
def c1buf : Bytes := encodeBytesEntry [107] [1, 2, 3, 4]

/-- Counterexample to C1: `c1buf` is a well-formed encoding (it decodes
cleanly), yet its truncation at byte offset 10 — strictly before its
true end 11 — does NOT fail with `TruncatedInput`: the unchecked
`buf.read` clamps the 4-byte payload to the 3 remaining bytes and
decoding succeeds with a silently shortened `Bytes` value
(hex `010203` instead of `01020304`). -/
theorem c1_counterexample :
    c1buf = encodeBytesEntry [107] [1, 2, 3, 4] ∧
    c1buf.length = 11 ∧
    decodeAll [] c1buf =
      .ok [([107], VT.bytes, PyVal.str (hexAscii [1, 2, 3, 4]))] ∧
    decodeAll [] (c1buf.take 10) =
      .ok [([107], VT.bytes, PyVal.str (hexAscii [1, 2, 3]))] :=
  ⟨rfl, rfl, rfl, rfl⟩

lemma int32LE_length (n : Int) : (int32LE n).length = 4 := by
  simp [int32LE]

lemma readFmtBytes_ok (B : Bytes) (pos n : Nat) (h : pos + n ≤ B.length) :
    readFmtBytes B pos n = .ok ((B.drop pos).take n, pos + n) := by
  have h2 := readFmtBytes_take_ok B B.length pos n h (le_refl _)
  rwa [List.take_length] at h2

lemma iterGo_succ (reg : Registry) (fuel : Nat) (buf : Bytes) (pos : Nat) :
    iterGo reg (fuel + 1) buf pos =
      (if buf.length ≤ pos then .ok []
      else do
        let (k, p) ← readShortBytesLP buf pos
        let (tv, v, p') ← readValue reg true fuel buf p
        let rest ← iterGo reg fuel buf p'
        .ok ((k, tv, v) :: rest)) := rfl

lemma readShortBytesLP_eq (buf : Bytes) (pos b p : Nat)
    (h : readUint8 buf pos = .ok (b, p)) :
    readShortBytesLP buf pos = .ok (pyRead buf p (b : Int)) := by
  unfold readShortBytesLP
  rw [h]
  rfl

lemma readValue_fail (reg : Registry) (dec : Bool) (fuel : Nat) (buf : Bytes)
    (pos : Nat) (e : DErr) (h : readUint8 buf pos = .error e) :
    readValue reg dec (fuel + 1) buf pos = .error e := by
  unfold readValue
  rw [h]
  rfl

lemma readValue_int32 (reg : Registry) (dec : Bool) (fuel : Nat) (buf : Bytes)
    (pos p : Nat) (h : readUint8 buf pos = .ok (0, p)) :
    readValue reg dec (fuel + 1) buf pos =
      (do
        let (n, p') ← readInt32 buf p
        .ok (VT.int32, PyVal.int n, p') : Except DErr (VT × PyVal × Nat)) := by
  unfold readValue
  rw [h]
  rfl

lemma pyRead_natCast (buf : Bytes) (pos m : Nat) :
    pyRead buf pos (m : Int) =
      ((buf.drop pos).take m, pos + ((buf.drop pos).take m).length) := by
  unfold pyRead
  rw [if_neg (by omega), Int.toNat_natCast]

lemma readUint8_eq_of_head (buf : Bytes) (pos b : Nat) (rest : Bytes)
    (h : buf.drop pos = b :: rest) :
    readUint8 buf pos = .ok (b, pos + 1) := by
  have hle : pos + 1 ≤ buf.length := by
    have h1 : (buf.drop pos).length = buf.length - pos := List.length_drop ..
    rw [h] at h1
    simp at h1
    omega
  unfold readUint8
  rw [readFmtBytes_ok buf pos 1 hle, except_bind_ok]
  rw [h]
  show Except.ok (b + 256 * 0, pos + 1) = _
  norm_num

/-- C1 amended: for entries whose value is read through the checked
`read_fmt` path (an `Int32` value; arbitrary key), the original claim
does hold — every truncation at an offset strictly between 0 and the
true end fails with `TruncatedInput`, and the untruncated buffer
decodes cleanly.  (The counterexample shows the claim fails where the
truncation point falls inside an unchecked `buf.read` payload.) -/
theorem c1_amended_scalar_truncation (key : Bytes) (n : Int) (t : Nat)
    (hkey : key.length < 256) (ht0 : 0 < t)
    (ht : t < (encodeInt32Entry key n).length) :
    decodeAll [] ((encodeInt32Entry key n).take t) = .error .truncated ∧
    decodeAll [] (encodeInt32Entry key n) =
      .ok [(key, VT.int32, PyVal.int (toSigned 32 (leNat (int32LE n))))] := by
  have hB : encodeInt32Entry key n = key.length :: (key ++ 0 :: int32LE n) := by
    simp [encodeInt32Entry]
  have hlen : (encodeInt32Entry key n).length = key.length + 6 := by
    simp [encodeInt32Entry, int32LE]
  have hdrop1 : (encodeInt32Entry key n).drop 1 = key ++ 0 :: int32LE n := by
    rw [hB]
    rfl
  have hdropk : (encodeInt32Entry key n).drop (1 + key.length) = 0 :: int32LE n := by
    rw [hB, show 1 + key.length = key.length + 1 from by omega,
      List.drop_succ_cons]
    exact List.drop_left key (0 :: int32LE n)
  have hdropk2 : (encodeInt32Entry key n).drop (key.length + 2) = int32LE n := by
    rw [hB, show key.length + 2 = (key.length + 1) + 1 from by omega,
      List.drop_succ_cons, List.append_cons,
      show key.length + 1 = (key ++ [0]).length from by simp]
    exact List.drop_left (key ++ [0]) (int32LE n)
  have htB : t ≤ (encodeInt32Entry key n).length := le_of_lt ht
  have ht6 : t < key.length + 6 := by omega
  have htake4 : (int32LE n).take 4 = int32LE n := by
    conv_lhs => rw [← int32LE_length n]
    exact List.take_length ..
  constructor
  · -- truncated decode
    obtain ⟨g, rfl⟩ : ∃ g, t = g + 1 := ⟨t - 1, by omega⟩
    have hLlen : ((encodeInt32Entry key n).take (g + 1)).length = g + 1 := by
      rw [List.length_take]
      omega
    have u8 : readUint8 ((encodeInt32Entry key n).take (g + 1)) 0 =
        .ok (key.length, 1) := by
      unfold readUint8
      rw [readFmtBytes_take_ok _ _ 0 1 (by omega) htB, except_bind_ok]
      rw [List.drop_zero, hB]
      show Except.ok (key.length + 256 * 0, 0 + 1) = _
      norm_num
    have sb : readShortBytesLP ((encodeInt32Entry key n).take (g + 1)) 0 =
        .ok (pyRead ((encodeInt32Entry key n).take (g + 1)) 1 (key.length : Int)) :=
      readShortBytesLP_eq _ 0 key.length 1 u8
    have hdropL1 : ((encodeInt32Entry key n).take (g + 1)).drop 1 =
        (key ++ 0 :: int32LE n).take g := by
      rw [List.drop_take, hdrop1]
      norm_num
    unfold decodeAll topFuel
    rw [hLlen, iterGo_succ, if_neg (by omega), sb, except_bind_ok,
      pyRead_natCast]
    dsimp only
    rcases le_or_lt (g + 1) (1 + key.length) with hA | hBtail
    · -- truncation inside key bytes or right before the tag
      have hkeylen : (((encodeInt32Entry key n).take (g + 1)).drop 1).take
          key.length = (key ++ 0 :: int32LE n).take g := by
        rw [hdropL1, List.take_take, min_eq_right (by omega)]
      have hklen2 : ((key ++ 0 :: int32LE n).take g).length = g := by
        rw [List.length_take]
        simp only [List.length_append, List.length_cons, int32LE_length]
        omega
      rw [hkeylen, hklen2]
      have u8fail : readUint8 ((encodeInt32Entry key n).take (g + 1)) (1 + g) =
          .error .truncated := by
        unfold readUint8
        rw [readFmtBytes_take_fail _ _ (1 + g) 1 (by omega) (by omega) htB]
        rfl
      rw [readValue_fail _ _ _ _ _ _ u8fail]
      rfl
    · -- truncation inside the 4 value bytes (or right after the tag)
      have hkeylen : (((encodeInt32Entry key n).take (g + 1)).drop 1).take
          key.length = key := by
        rw [hdropL1, List.take_take, min_eq_left (by omega)]
        exact List.take_left key (0 :: int32LE n)
      rw [hkeylen]
      have u8tag : readUint8 ((encodeInt32Entry key n).take (g + 1))
          (1 + key.length) = .ok (0, 1 + key.length + 1) := by
        unfold readUint8
        rw [readFmtBytes_take_ok _ _ (1 + key.length) 1 (by omega) htB,
          except_bind_ok, hdropk]
        show Except.ok (0 + 256 * 0, 1 + key.length + 1) = _
        norm_num
      rw [readValue_int32 _ _ _ _ _ _ u8tag]
      have i32fail : readInt32 ((encodeInt32Entry key n).take (g + 1))
          (1 + key.length + 1) = .error .truncated := by
        unfold readInt32
        rw [readFmtBytes_take_fail _ _ (1 + key.length + 1) 4 (by omega)
          (by omega) htB]
        rfl
      rw [i32fail]
      rfl
  · -- full decode
    have u8 : readUint8 (encodeInt32Entry key n) 0 = .ok (key.length, 1) := by
      apply readUint8_eq_of_head
      rw [List.drop_zero, hB]
    have sb : readShortBytesLP (encodeInt32Entry key n) 0 =
        .ok (pyRead (encodeInt32Entry key n) 1 (key.length : Int)) :=
      readShortBytesLP_eq _ 0 key.length 1 u8
    have hkeyfull : ((encodeInt32Entry key n).drop 1).take key.length = key := by
      rw [hdrop1]
      exact List.take_left key (0 :: int32LE n)
    have u8tag : readUint8 (encodeInt32Entry key n) (1 + key.length) =
        .ok (0, 1 + key.length + 1) :=
      readUint8_eq_of_head _ _ 0 (int32LE n) hdropk
    have i32ok : readInt32 (encodeInt32Entry key n) (1 + key.length + 1) =
        .ok (toSigned 32 (leNat (int32LE n)), 1 + key.length + 1 + 4) := by
      unfold readInt32
      rw [show 1 + key.length + 1 = key.length + 2 from by omega,
        readFmtBytes_ok _ (key.length + 2) 4 (by omega), except_bind_ok]
      dsimp only
      rw [hdropk2, htake4]
    unfold decodeAll topFuel
    rw [hlen, iterGo_succ, if_neg (by omega), sb, except_bind_ok,
      pyRead_natCast]
    dsimp only
    rw [hkeyfull]
    rw [show key.length + 6 = (key.length + 5) + 1 from by omega,
      readValue_int32 _ _ _ _ _ _ u8tag, i32ok, except_bind_ok]
    dsimp only
    have hfin : iterGo [] ((key.length + 5) + 1) (encodeInt32Entry key n)
        (1 + key.length + 1 + 4) = .ok [] := by
      rw [iterGo_succ, if_pos (by omega)]
    rw [except_bind_ok]
    dsimp only
    rw [hfin]
    rfl

/-- Witness for C1 amended: the one-byte key `[107]`, value 5, truncated
at offset 3. -/
theorem c1_amended_scalar_truncation_witness :
    decodeAll [] ((encodeInt32Entry [107] 5).take 3) = .error .truncated ∧
    decodeAll [] (encodeInt32Entry [107] 5) =
      .ok [([107], VT.int32, PyVal.int (toSigned 32 (leNat (int32LE 5))))] :=
  c1_amended_scalar_truncation [107] 5 3 (by norm_num) (by norm_num) (by decide)

/-! ### C4: scan counts over a record stream -/

/-- The skip condition of the scan: the record value's 1-byte type
discriminant reads successfully and is non-zero (the `if typ != 0:
return None` path of `read_intermediate_message_complete`). -/
def invalidDisc (v : Bytes) : Bool :=
  match readInt8 v 0 with
  | .ok (typ, _) => typ ≠ 0
  | .error _ => false

lemma readMsg_none_iff (reg : Registry) (v : Bytes) :
    read_intermediate_message_complete reg v = Option.none ↔
      invalidDisc v = true := by
  unfold read_intermediate_message_complete readMessageBody invalidDisc
  cases h : readInt8 v 0 with
  | error e =>
    rw [except_bind_err]
    simp
  | ok tp =>
    obtain ⟨typ, p⟩ := tp
    rw [except_bind_ok]
    dsimp only
    by_cases htyp : typ = 0
    · rw [if_neg (by simp [htyp])]
      cases hrest : readMessageRest reg v p <;> simp [Except.map, htyp]
    · rw [if_pos (by simpa using htyp)]
      simp [htyp]

/-- Key bytes for the C4 stream: big-endian peerId 1, namespace 1,
timestamp 0, messageId 1. -/
def c4key : Bytes :=
  [0, 0, 0, 0, 0, 0, 0, 1, 0, 0, 0, 1, 0, 0, 0, 0, 0, 0, 0, 1]

/-- A minimal valid complete-message value: discriminant 0, stableId 1,
stableVersion 1, no data flags, empty flag/tag masks, no forward block,
no author, empty text, and empty attribute / media / reference arrays. -/
def c4goodVal : Bytes :=
  [0] ++ [1, 0, 0, 0] ++ [1, 0, 0, 0] ++ [0] ++ [0, 0, 0, 0] ++
    [0, 0, 0, 0] ++ [0] ++ [0] ++ [0, 0, 0, 0] ++ [0, 0, 0, 0] ++
    [0, 0, 0, 0] ++ [0, 0, 0, 0]

/-- A value with an invalid (non-zero) record-type discriminant. -/
def c4badVal : Bytes := [1]

/-- Counterexample to C4: a stream of N = 2 records for peer 1 of which
K = 1 has an invalid (non-zero) discriminant yields only 1 output entry
— the invalid-discriminant record is skipped entirely rather than
producing an error placeholder, so the output has N − K = 1 entries,
fewer than the N = 2 the claim requires. -/
theorem c4_counterexample :
    (extract_complete_chat_scan [] (fun _ => Option.none) 1
        [⟨c4key, c4goodVal⟩, ⟨c4key, c4badVal⟩]).length = 1 ∧
    read_intermediate_message_complete [] c4badVal = Option.none ∧
    (∃ m, read_intermediate_message_complete [] c4goodVal =
      some (.record m)) :=
  ⟨rfl, rfl, ⟨_, rfl⟩⟩

/-- C4 amended: scanning a stream of N records (all with well-formed
keys for the requested peer) yields exactly one output entry per record
whose discriminant is valid — i.e. N − K entries when K records have an
invalid (non-zero) discriminant.  The K invalid records are skipped and
produce no output at all (no error placeholder). -/
theorem c4_amended_scan_count (reg : Registry) (peerLookup : Int → Option PyVal)
    (peerId : Int) (recs : List KVRec)
    (hkeys : ∀ r ∈ recs, ∃ idx, msgIndexFromBytes r.key = .ok idx ∧
      idx.peerId = peerId) :
    (extract_complete_chat_scan reg peerLookup peerId recs).length =
      (recs.filter fun r => !invalidDisc r.value).length := by
  induction recs with
  | nil => rfl
  | cons r rest ih =>
    obtain ⟨idx, hidx, hpeer⟩ := hkeys r (by simp)
    have hrest : ∀ r' ∈ rest, ∃ idx, msgIndexFromBytes r'.key = .ok idx ∧
        idx.peerId = peerId := fun r' hr' => hkeys r' (by simp [hr'])
    unfold extract_complete_chat_scan
    rw [List.filterMap_cons, List.filter_cons]
    cases hmsg : read_intermediate_message_complete reg r.value with
    | none =>
      have hinv : invalidDisc r.value = true := (readMsg_none_iff reg _).mp hmsg
      have hscan : scanRecord reg peerLookup peerId r = Option.none := by
        unfold scanRecord
        rw [hidx]
        dsimp only
        rw [if_neg (by simp [hpeer]), hmsg]
      rw [hscan, hinv]
      simp only [Bool.not_true, Bool.false_eq_true, if_false]
      exact ih hrest
    | some m =>
      have hinv : invalidDisc r.value = false := by
        cases h2 : invalidDisc r.value
        · rfl
        · rw [← readMsg_none_iff reg r.value, hmsg] at h2
          exact absurd h2 (by simp)
      obtain ⟨out, hscan⟩ : ∃ out, scanRecord reg peerLookup peerId r = some out := by
        unfold scanRecord
        rw [hidx]
        dsimp only
        rw [if_neg (by simp [hpeer]), hmsg]
        exact ⟨_, rfl⟩
      rw [hscan, hinv]
      simp only [Bool.not_false, if_true, List.length_cons]
      have h3 := ih hrest
      unfold extract_complete_chat_scan at h3
      omega

/-- Witness for C4 amended: the two-record stream of the
counterexample satisfies the key hypothesis and scans to 1 = N − K
entries. -/
theorem c4_amended_scan_count_witness :
    (extract_complete_chat_scan [] (fun _ => Option.none) 1
        [⟨c4key, c4goodVal⟩, ⟨c4key, c4badVal⟩]).length =
      (([⟨c4key, c4goodVal⟩, ⟨c4key, c4badVal⟩] :
        List KVRec).filter fun r => !invalidDisc r.value).length :=
  c4_amended_scan_count [] (fun _ => Option.none) 1
    [⟨c4key, c4goodVal⟩, ⟨c4key, c4badVal⟩] (by
      intro r hr
      have : r = (⟨c4key, c4goodVal⟩ : KVRec) ∨ r = (⟨c4key, c4badVal⟩ : KVRec) := by
        simpa using hr
      rcases this with rfl | rfl <;> exact ⟨⟨1, 1, 1, 0⟩, rfl, rfl⟩)

end TGRec
